import Mathlib

/-!
Verification of the metadata-normalization and size-constrained re-encoding
core of the cloudinary_tools repository (src/app/cloudinary_service.py).

The Python code is shallowly embedded as executable Lean definitions:

* Python dict values occurring in the EXIF pipeline are modelled by `Value`
  (int, rational, string).  A Python `float` value is embedded as the exact
  rational the IEEE-754 binary64 value denotes (`Fraction(float)` is exact
  in CPython), so `convert_shutter_speed` is a function on `ℚ`; the
  `float(...)` and `str(float(...))` conversions are modelled by correct
  rounding to the nearest binary64 (round half to even) and by CPython's
  shortest-round-trip repr, implemented below on exact integers.
* The EXIF dictionaries flowing through `filter_exif` only ever hold the
  nine relevant tag names plus the two renamed keys, so a dict is modelled
  as a record of `Option Value` fields (`none` = key absent, or present
  with value `None`, which the selection step treats identically) plus an
  `extra` association list for all other keys.  Python dict equality
  ignores insertion order, which matches record equality.
* Fallible Python code (KeyError, TypeError, ValueError, AttributeError)
  is modelled with `Except PyErr`.
* JPEG encoding itself is external (PIL); `reduce_image_size` is modelled
  over an abstract size function: `encDefault` is the byte size produced by
  the initial default-quality save and `enc q` the byte size produced by
  saving the original pixel data at quality `q`.  That `enc` is a fixed
  function of the quality alone reflects that the loop body always
  re-encodes the unchanged original `image` with the same `exif` metadata
  block, never the previous iteration's output.
-/

namespace CS

/-- Raw EXIF tag value: a Python int, a rational (PIL IFDRational / float,
embedded exactly), or a string. -/
inductive Value where
  | int : Int → Value
  | rat : ℚ → Value
  | str : String → Value
deriving DecidableEq

/-- Python exceptions that the embedded code can raise. -/
inductive PyErr where
  | keyError : String → PyErr
  | typeError : PyErr
  | valueError : PyErr
  | attributeError : PyErr
deriving DecidableEq

/-- A Python dict as it flows through `filter_exif` / `clean_software_tag`:
one optional slot per key that the code ever reads or writes, plus an
association list for the remaining (irrelevant) keys.  `none` means the key
is absent (or, before selection, present with value `None`; the selection
comprehension in `filter_exif` drops both). -/
structure ExifDict where
  Model : Option Value
  LensModel : Option Value
  FocalLengthIn35mmFilm : Option Value
  FNumber : Option Value
  ExposureTime : Option Value
  ISOSpeedRatings : Option Value
  ExposureProgram : Option Value
  Software : Option Value
  DateTimeOriginal : Option Value
  ISO : Option Value
  FocalLengthIn35mmFormat : Option Value
  extra : List (String × Value)
deriving DecidableEq

/-- The all-absent dict. -/
def ExifDict.empty : ExifDict :=
  ⟨none, none, none, none, none, none, none, none, none, none, none, []⟩

instance {α β : Type} [DecidableEq α] [DecidableEq β] :
    DecidableEq (Except α β) := fun a b =>
  match a, b with
  | .ok x, .ok y =>
    if h : x = y then isTrue (by rw [h])
    else isFalse (fun hc => h (Except.ok.inj hc))
  | .error x, .error y =>
    if h : x = y then isTrue (by rw [h])
    else isFalse (fun hc => h (Except.error.inj hc))
  | .ok _, .error _ => isFalse (fun hc => Except.noConfusion hc)
  | .error _, .ok _ => isFalse (fun hc => Except.noConfusion hc)

/-- Python `needle in haystack` on strings, on the character-list level:
true iff `n` occurs as a contiguous substring (the empty needle matches). -/
def subAt (n : List Char) : List Char → Bool
  | [] => n.isPrefixOf []
  | c :: t => n.isPrefixOf (c :: t) || subAt n t

/-- Python `needle in haystack` for strings. -/
def containsSub (n h : String) : Bool := subAt n.toList h.toList

/-- Greedy match of the regex fragment `\d+\.\d+` anchored at the start of
`l`, returning the two digit groups.  No backtracking is needed: a maximal
digit run can only be followed by the literal dot, never by another digit. -/
def parseVer (l : List Char) : Option (List Char × List Char) :=
  let d1 := l.takeWhile Char.isDigit
  let r1 := l.dropWhile Char.isDigit
  if d1.isEmpty then none
  else
    match r1 with
    | '.' :: r2 =>
      let d2 := r2.takeWhile Char.isDigit
      if d2.isEmpty then none else some (d1, d2)
    | _ => none

/-- Match of `Lightroom Classic \d+\.\d+` anchored at the start of `l`,
returning the whole matched substring (re `group(0)`). -/
def lcHere (l : List Char) : Option String :=
  let pre := "Lightroom Classic ".toList
  if pre.isPrefixOf l then
    match parseVer (l.drop pre.length) with
    | some (d1, d2) => some (String.mk (pre ++ d1 ++ '.' :: d2))
    | none => none
  else none

/-- Leftmost search for `Lightroom Classic \d+\.\d+` (re.search scans the
start positions left to right). -/
def lcSearch : List Char → Option String
  | [] => none
  | c :: t =>
    match lcHere (c :: t) with
    | some m => some m
    | none => lcSearch t

/-- Python `re.search(r"Lightroom Classic \d+\.\d+", s)`, returning
`group(0)` of the leftmost match. -/
def matchLC (s : String) : Option String := lcSearch s.toList

/-- First-of helper mirroring regex alternative priority. -/
def orElseO {α : Type} (a b : Option α) : Option α :=
  match a with
  | some x => some x
  | none => b

/-- Match of `Ver\.? ?(\d+\.\d+)|Ver(\d+\.\d+)` anchored at the start of
`l`, returning the captured digit groups.  The backtracking order of the
two greedy optionals `\.?` and ` ?` tries the separators `". "`, `"."`,
`" "`, `""` in that order; the second regex alternative matches a subset of
the first (both separators empty), so the capture is always the
`\d+\.\d+` group that follows the chosen separator. -/
def verHere (l : List Char) : Option (List Char × List Char) :=
  if ("Ver".toList).isPrefixOf l then
    let r := l.drop 3
    orElseO
      (match r with
       | '.' :: ' ' :: r2 => parseVer r2
       | _ => none)
      (orElseO
        (match r with
         | '.' :: r2 => parseVer r2
         | _ => none)
        (orElseO
          (match r with
           | ' ' :: r2 => parseVer r2
           | _ => none)
          (parseVer r)))
  else none

/-- Leftmost search for the `Ver` version pattern. -/
def verSearch : List Char → Option (List Char × List Char)
  | [] => none
  | c :: t =>
    match verHere (c :: t) with
    | some p => some p
    | none => verSearch t

/-- Python `re.search(r"Ver\.? ?(\d+\.\d+)|Ver(\d+\.\d+)", s)`, returning
the digit groups of the captured version number (`group(1) or group(2)`). -/
def findVer (s : String) : Option (List Char × List Char) :=
  verSearch s.toList

/-- Numeric value of a digit run. -/
def digitsVal (l : List Char) : Nat :=
  l.foldl (fun a c => 10 * a + (c.toNat - 48)) 0

/-- Decimal digit as a character. -/
def digitChar (n : Nat) : Char :=
  if n = 0 then '0' else if n = 1 then '1' else if n = 2 then '2'
  else if n = 3 then '3' else if n = 4 then '4' else if n = 5 then '5'
  else if n = 6 then '6' else if n = 7 then '7' else if n = 8 then '8'
  else '9'

/-- Decimal digits of a natural number, most significant first (fueled so
that it evaluates inside the kernel). -/
def natDigitsGo : Nat → Nat → List Char → List Char
  | 0, _, acc => acc
  | fuel + 1, n, acc =>
    if n < 10 then digitChar n :: acc
    else natDigitsGo fuel (n / 10) (digitChar (n % 10) :: acc)

/-- Decimal digit characters of `n`. -/
def natDigitChars (n : Nat) : List Char := natDigitsGo (n + 1) n []

/-- A run of `k` zero characters. -/
def zeroRun (k : Nat) : List Char := List.replicate k '0'

/-- Fueled binary logarithm. -/
def log2fuel : Nat → Nat → Nat
  | 0, _ => 0
  | fuel + 1, n => if 2 ≤ n then log2fuel fuel (n / 2) + 1 else 0

/-- Floor of log2 of a positive natural number. -/
def natLog2 (n : Nat) : Nat := log2fuel n n

/-- Number of decimal digits of `n`. -/
def numDigits10 (n : Nat) : Nat := (natDigitChars n).length

/-- Test `2^k ≤ a/b` by cross multiplication. -/
def pow2LeQ (k : Int) (a b : Nat) : Bool :=
  if 0 ≤ k then b * 2 ^ k.toNat ≤ a else b ≤ a * 2 ^ (-k).toNat

/-- Floor of log2 of the positive rational `a/b`. -/
def floorLog2 (a b : Nat) : Int :=
  let k0 : Int := (natLog2 a : Int) - (natLog2 b : Int)
  if pow2LeQ k0 a b then k0 else k0 - 1

/-- Test `10^k ≤ a/b` by cross multiplication. -/
def pow10LeQ (k : Int) (a b : Nat) : Bool :=
  if 0 ≤ k then b * 10 ^ k.toNat ≤ a else b ≤ a * 10 ^ (-k).toNat

/-- Floor of log10 of the positive rational `a/b`. -/
def floorLog10 (a b : Nat) : Int :=
  let c : Int := (numDigits10 a : Int) - (numDigits10 b : Int)
  if pow10LeQ c a b then c else c - 1

/-- Round the nonnegative rational `a/b` to the nearest natural number,
ties to even — the rounding IEEE-754 arithmetic uses. -/
def roundHalfEvenND (a b : Nat) : Nat :=
  let n0 := a / b
  let r := a % b
  if 2 * r < b then n0
  else if b < 2 * r then n0 + 1
  else if n0 % 2 = 0 then n0 else n0 + 1

/-- Round the nonnegative rational `a/b` to the nearest IEEE-754 binary64
value (round half to even), as a canonical significand/exponent pair
`(m, e)` with value `m * 2^e`: `(0, 0)` for zero, `2^52 ≤ m < 2^53` for
normal values, `m < 2^52` with `e = -1074` for subnormals; `none` stands
for overflow to infinity. -/
def roundToDoublePos (a b : Nat) : Option (Nat × Int) :=
  if a = 0 then some (0, 0)
  else
    let e := max (floorLog2 a b - 52) (-1074)
    let m :=
      if 0 ≤ e then roundHalfEvenND a (b * 2 ^ e.toNat)
      else roundHalfEvenND (a * 2 ^ (-e).toNat) b
    let me := if m = 2 ^ 53 then ((2 ^ 52 : Nat), e + 1) else (m, e)
    if me.1 = 0 then some (0, 0)
    else if 972 ≤ me.2 then none
    else some me

/-- The value `m * 2^e` as a numerator/denominator pair. -/
def dblParts (m : Nat) (e : Int) : Nat × Nat :=
  if 0 ≤ e then (m * 2 ^ e.toNat, 1) else (m, 2 ^ (-e).toNat)

/-- The value `m * 2^e` as a rational. -/
def dblVal (m : Nat) (e : Int) : ℚ :=
  mkRat ((dblParts m e).1 : Int) (dblParts m e).2

/-- The value `(a/b) * 10^s` as a numerator/denominator pair. -/
def scalePow10 (a b : Nat) (s : Int) : Nat × Nat :=
  if 0 ≤ s then (a * 10 ^ s.toNat, b) else (a, b * 10 ^ (-s).toNat)

/-- The correctly rounded `n`-significant-digit decimal approximation of
the positive value `a/b` whose floor-log10 is `p0`: its digit characters,
its decimal exponent, and its exact value as a pair (a carry into the next
power of ten shortens the digits to `1`). -/
def mkCandidate (a b : Nat) (p0 : Int) (n : Nat) :
    (List Char × Int) × (Nat × Nat) :=
  let s := p0 - (n : Int) + 1
  let x := scalePow10 a b (-s)
  let c := roundHalfEvenND x.1 x.2
  if c = 10 ^ n then ((['1'], p0 + 1), scalePow10 1 1 (p0 + 1))
  else ((natDigitChars c, p0), scalePow10 c 1 s)

/-- Shortest-round-trip digit search of CPython's float repr: try 1, 2, …
significant digits and keep the first correctly rounded candidate that
rounds back to the same double `(m, e)`; 17 digits always round-trip, so
the last candidate is taken unconditionally when the fuel runs out. -/
def shortestGo (a b m : Nat) (e p0 : Int) : Nat → Nat → List Char × Int
  | 0, n => (mkCandidate a b p0 n).1
  | fuel + 1, n =>
    let cand := mkCandidate a b p0 n
    if roundToDoublePos cand.2.1 cand.2.2 = some (m, e) then cand.1
    else shortestGo a b m e p0 fuel (n + 1)

/-- Exponent suffix of Python float repr: sign always shown, at least two
digits. -/
def expChars (p : Int) : List Char :=
  let ds := natDigitChars p.natAbs
  (if p < 0 then '-' else '+') ::
    (if p.natAbs < 10 then '0' :: ds else ds)

/-- Scientific-notation rendering `d.ddd e±pp` (no point when a single
digit). -/
def sciForm (D : List Char) (p : Int) : List Char :=
  match D with
  | [] => []
  | c :: rest =>
    c :: (if rest.isEmpty then [] else '.' :: rest) ++ 'e' :: expChars p

/-- Fixed-notation rendering: pure fraction (`0.00ddd`), integral value
(`ddd00.0`) or a point inside the digits. -/
def fixedForm (D : List Char) (p : Int) : List Char :=
  if p < 0 then '0' :: '.' :: (zeroRun (p.natAbs - 1) ++ D)
  else if D.length - 1 ≤ p.toNat then
    D ++ zeroRun (p.toNat - (D.length - 1)) ++ ['.', '0']
  else D.take (p.toNat + 1) ++ '.' :: D.drop (p.toNat + 1)

/-- CPython `repr` of the positive double `(m, e)`: the shortest decimal
that round-trips, in fixed notation when the decimal exponent lies in
[-4, 16) and scientific notation otherwise. -/
def reprDoublePos (m : Nat) (e : Int) : List Char :=
  let ab := dblParts m e
  let p0 := floorLog10 ab.1 ab.2
  let dp := shortestGo ab.1 ab.2 m e p0 16 1
  if -4 ≤ dp.2 ∧ dp.2 < 16 then fixedForm dp.1 dp.2 else sciForm dp.1 dp.2

/-- Python `str(float(...))` for a parsed literal of magnitude `a/b` and
sign `neg`: round to the nearest double and print its shortest
round-tripping repr; overflow prints `inf`, a zero value prints `0.0`
(keeping a literal minus sign, as Python does for `-0.0`). -/
def strFloatOfLit (neg : Bool) (a b : Nat) : String :=
  if a = 0 then (if neg then "-0.0" else "0.0")
  else
    match roundToDoublePos a b with
    | none => if neg then "-inf" else "inf"
    | some me =>
      if me.1 = 0 then (if neg then "-0.0" else "0.0")
      else String.mk ((if neg then ['-'] else []) ++ reprDoublePos me.1 me.2)

/-- Python `str(float(version_number))` on a matched version literal
`d1.d2`: correct rounding to binary64 followed by the shortest
round-tripping repr, exactly as CPython computes it (so
`"1.1234567890123456789"` renders as `"1.1234567890123457"`, and literals
with hundreds of integer digits overflow to `"inf"`). -/
def canonVer (d1 d2 : List Char) : String :=
  strFloatOfLit false (digitsVal d1 * 10 ^ d2.length + digitsVal d2)
    (10 ^ d2.length)

/-- Character alphabet of Python float strings (digits, point, exponent
marker, signs, and the letters of `inf`). -/
def floatChar (c : Char) : Prop :=
  c.isDigit = true ∨ c = '.' ∨ c = 'e' ∨ c = '+' ∨ c = '-' ∨
    c = 'i' ∨ c = 'n' ∨ c = 'f'

instance (c : Char) : Decidable (floatChar c) := by
  unfold floatChar; infer_instance

/-- Python `str(Fraction(num, den))`: `"num/den"`, or just `"num"` when the
denominator is 1. -/
def ratStr (q : ℚ) : String :=
  if q.den = 1 then toString q.num
  else toString q.num ++ "/" ++ toString q.den

/-- Rendering of a raw tag value by `str()` / f-string interpolation.
Integers and strings render exactly as in Python; a PIL rational renders
through its fraction form (no claim depends on this case). -/
def pyStr : Value → String
  | .int n => toString n
  | .rat q => ratStr q
  | .str s => s

/-- Python numeric equality collapses `Fraction(n, 1)` with the int `n`, so
dict lookup with a whole-valued rational key finds the int key. -/
def valueAsInt : Value → Option Int
  | .int n => some n
  | .rat q => if q.den = 1 then some q.num else none
  | .str _ => none

/-- The module-level EXPOSURE_PROGRAM table, keys 0..8. -/
def EXPOSURE_PROGRAM (n : Int) : Option String :=
  if n = 0 then some "Not defined"
  else if n = 1 then some "Manual"
  else if n = 2 then some "Program AE"
  else if n = 3 then some "Aperture-priority AE"
  else if n = 4 then some "Shutter-priority AE"
  else if n = 5 then some "Creative (slow speed)"
  else if n = 6 then some "Action (high speed)"
  else if n = 7 then some "Portrait"
  else if n = 8 then some "Landscape"
  else none

/-- Python `EXPOSURE_PROGRAM.get(v, "Not defined")`. -/
def epGet (v : Value) : String :=
  match valueAsInt v with
  | some n => (EXPOSURE_PROGRAM n).getD "Not defined"
  | none => "Not defined"

/-- Whitespace characters float() strips around the literal (the ASCII
whitespace set; Python also strips the rarer Unicode spaces, which no
EXIF value contains). -/
def isPyWs (c : Char) : Bool :=
  c = ' ' || c = '\t' || c = '\n' || c = '\r' || c = '\x0b' || c = '\x0c'

/-- PEP 515 underscore validation of float(): every underscore must sit
between two digits. -/
def usOk : Option Char → List Char → Bool
  | _, [] => true
  | prev, c :: t =>
    if c = '_' then
      (match prev with
       | some p => p.isDigit
       | none => false) &&
      (match t with
       | c2 :: _ => c2.isDigit
       | [] => false) && usOk (some c) t
    else usOk (some c) t

/-- Drop trailing whitespace. -/
def stripTrailWs (l : List Char) : List Char :=
  (l.reverse.dropWhile isPyWs).reverse

/-- Lower-case a character list (for the case-insensitive inf/nan
forms). -/
def toLowerList (l : List Char) : List Char := l.map Char.toLower

/-- Optional signed digit run of a float literal's exponent part,
returning its value and the unconsumed rest. -/
def parseExp (l : List Char) : Option (Int × List Char) :=
  let sg : Int × List Char :=
    match l with
    | '+' :: t => (1, t)
    | '-' :: t => (-1, t)
    | _ => (1, l)
  let ed := sg.2.takeWhile Char.isDigit
  if ed.isEmpty then none
  else some (sg.1 * (digitsVal ed : Int), sg.2.dropWhile Char.isDigit)

/-- Python `float(s)` on a string: the full literal grammar — surrounding
whitespace, optional sign, `digits [. digits]` or `. digits`, optional
`e`/`E` exponent, PEP 515 underscores, and the case-insensitive
`inf`/`infinity`/`nan` forms — with the accepted finite values correctly
rounded to the nearest binary64 and embedded as exact rationals.  `none`
covers ValueError on a malformed literal and also the non-finite results
(`inf`/`nan` literals, overflowing exponents): float() succeeds on those,
but the very next conversion applied to the value in this code base
(`int()` / `Fraction()` in `convert_shutter_speed`) then raises
OverflowError/ValueError, so in every `none` case the source raises a
non-missing-key error at the same ExposureTime statement. -/
def parseFloatStr (s : String) : Option ℚ :=
  let l0 := stripTrailWs (s.toList.dropWhile isPyWs)
  if usOk none l0 = false then none
  else
    let l1 := l0.filter (fun c => c ≠ '_')
    let sg : Bool × List Char :=
      match l1 with
      | '+' :: t => (false, t)
      | '-' :: t => (true, t)
      | _ => (false, l1)
    let low := toLowerList sg.2
    if low = "inf".toList || low = "infinity".toList || low = "nan".toList
    then none
    else
      let ip := sg.2.takeWhile Char.isDigit
      let r1 := sg.2.dropWhile Char.isDigit
      let fr : List Char × List Char :=
        match r1 with
        | '.' :: r2 => (r2.takeWhile Char.isDigit, r2.dropWhile Char.isDigit)
        | _ => ([], r1)
      if ip.isEmpty && fr.1.isEmpty then none
      else
        let ex? : Option (Int × List Char) :=
          match fr.2 with
          | 'e' :: r3 => parseExp r3
          | 'E' :: r3 => parseExp r3
          | r3 => some (0, r3)
        match ex? with
        | none => none
        | some exr =>
          if exr.2.isEmpty = false then none
          else
            let ab := scalePow10
              (digitsVal ip * 10 ^ fr.1.length + digitsVal fr.1)
              (10 ^ fr.1.length) exr.1
            if ab.1 = 0 then some 0
            else
              match roundToDoublePos ab.1 ab.2 with
              | none => none
              | some me =>
                some (if sg.1 then -dblVal me.1 me.2 else dblVal me.1 me.2)

/-- Python `float(value)` applied to a raw tag value: correct rounding of
the exact int/rational value to the nearest binary64 (an int too large
for a double raises OverflowError, modelled by `none`), and the full
string grammar for text values. -/
def pyFloat : Value → Option ℚ
  | .int n =>
    match roundToDoublePos n.natAbs 1 with
    | none => none
    | some me => some (if n < 0 then -dblVal me.1 me.2 else dblVal me.1 me.2)
  | .rat q =>
    match roundToDoublePos q.num.natAbs q.den with
    | none => none
    | some me =>
      some (if q.num < 0 then -dblVal me.1 me.2 else dblVal me.1 me.2)
  | .str s => parseFloatStr s

/-- Helper for `pyReplaceNikon`: copies characters, and when `"NIKON "`
starts at the current position drops it (the skip counter consumes the
remaining five characters of the occurrence).  Structurally recursive so
that it evaluates inside the kernel. -/
def stripNikonGo : Nat → List Char → List Char
  | _, [] => []
  | k + 1, _ :: t => stripNikonGo k t
  | 0, c :: t =>
    if ("NIKON ".toList).isPrefixOf (c :: t) then stripNikonGo 5 t
    else c :: stripNikonGo 0 t

/-- Python `s.replace("NIKON ", "")`: every non-overlapping occurrence of
`"NIKON "` is removed, scanning left to right (the only `str.replace` call
in the source, with these constant arguments). -/
def pyReplaceNikon (s : String) : String :=
  String.mk (stripNikonGo 0 s.toList)

/-- Embedding of `clean_software_tag` (cloudinary_service.py lines 63-82).
Reads `exif_dict["Software"]` (KeyError when absent); dispatches on
`"Adobe" in software`; on the Adobe branch searches for
`Lightroom Classic \d+\.\d+` and keeps `group(0)`, otherwise searches for
the `Ver` pattern and canonicalizes the captured number with
`str(float(...))`.  When neither branch matched, `software_version` is
still `None` and the unconditional `"Lightroom" in software_version`
membership test raises TypeError.  When the version does not contain
`"Lightroom"`, the final value is composed from
`exif_dict["Model"].replace("NIKON ", "")` (KeyError when Model is absent,
AttributeError when it is not a string). -/
def clean_software_tag (d : ExifDict) : Except PyErr ExifDict :=
  match d.Software with
  | none => .error (.keyError "Software")
  | some (.int _) => .error .typeError
  | some (.rat _) => .error .typeError
  | some (.str s) =>
    let sv : Option String :=
      if containsSub "Adobe" s then matchLC s
      else (findVer s).map (fun p => canonVer p.1 p.2)
    match sv with
    | none => .error .typeError
    | some ver =>
      if containsSub "Lightroom" ver then
        .ok { d with Software := some (.str ver) }
      else
        match d.Model with
        | none => .error (.keyError "Model")
        | some (.str m) =>
          .ok { d with Software := some (.str (pyReplaceNikon m ++ " Ver. " ++ ver)) }
        | some (.int _) => .error .attributeError
        | some (.rat _) => .error .attributeError

/-- Loop of CPython `Fraction.limit_denominator` (fractions.py): the
continued-fraction walk over `(n, d)` with convergent denominators
`q0, q1`, breaking as soon as the next denominator would exceed `N` and
then choosing the closer of the upper/lower bounds (ties to the smaller
denominator, i.e. `bound2`).  The closeness test
`abs(bound2 - self) <= abs(bound1 - self)` is carried out on the exact
cross-multiplied integers (the denominators `q1`, `q0 + k*q1` and `self`'s
denominator are positive at the break, so clearing them preserves the
comparison).  The recursion is driven by a fuel counter only to make it
structural; `d` strictly decreases on every step, so any fuel larger than
the starting `d` never runs out, and the `d ≤ 0` guard mirrors the
(unreachable) ZeroDivisionError region. -/
def limitDenLoop (v : ℚ) (N : Nat) :
    Nat → Int → Int → Int → Int → Int → Int → ℚ
  | 0, _, _, _, _, _, _ => 0
  | fuel + 1, p0, q0, p1, q1, n, d =>
    if d ≤ 0 then 0
    else
      let a := Int.fdiv n d
      let q2 := q0 + a * q1
      if (N : Int) < q2 then
        let k := Int.fdiv ((N : Int) - q0) q1
        let n2 := p1 * (v.den : Int) - v.num * q1
        let n1 := (p0 + k * p1) * (v.den : Int) - v.num * (q0 + k * q1)
        if (n2.natAbs : Int) * (q0 + k * q1) ≤ (n1.natAbs : Int) * q1 then
          Rat.divInt p1 q1
        else
          Rat.divInt (p0 + k * p1) (q0 + k * q1)
      else limitDenLoop v N fuel p1 q1 (p0 + a * p1) q2 d (n - a * d)

/-- CPython `Fraction.limit_denominator(N)`.  The `N = 0` branch stands for
the ValueError raise (never reached: the code always uses the default
`N = 1000000`); a fraction whose denominator already fits is returned
unchanged. -/
def limit_denominator (v : ℚ) (N : Nat) : ℚ :=
  if N = 0 then v
  else if v.den ≤ N then v
  else limitDenLoop v N (v.den + 1) 0 1 1 0 v.num (v.den : Int)

/-- Embedding of `convert_shutter_speed` (lines 55-60).  The float argument
is embedded as the exact rational it denotes (`Fraction(value)` is exact);
`int(value)` truncates toward zero, which is `Int.tdiv`. -/
def convert_shutter_speed (v : ℚ) : String :=
  if v < 1 then ratStr (limit_denominator v 1000000) ++ "s"
  else toString (v.num.tdiv v.den) ++ "s"

/-- Selection comprehension of `filter_exif`: keep only the nine relevant
tags whose value is not None (absent-or-None is `none` here), drop all
other keys. -/
def selectRelevant (bag : ExifDict) : ExifDict :=
  ⟨bag.Model, bag.LensModel, bag.FocalLengthIn35mmFilm, bag.FNumber,
   bag.ExposureTime, bag.ISOSpeedRatings, bag.ExposureProgram, bag.Software,
   bag.DateTimeOriginal, none, none, []⟩

/-- Embedding of `filter_exif` (lines 94-123), in the exact evaluation
order of the source: selection; `ExposureProgram` lookup (KeyError when
the key is absent); `FocalLengthIn35mmFilm` f-string formatting with the
`"mm"` suffix; `ExposureTime` through `float()` and
`convert_shutter_speed` (the `valueError` constructor stands for the
non-missing-key exception this statement raises when `pyFloat` yields
`none`: ValueError on a malformed literal, OverflowError/ValueError from
`int()`/`Fraction()` on a non-finite float); `clean_software_tag`;
then the two `pop`-based renames `ISOSpeedRatings -> ISO` and
`FocalLengthIn35mmFilm -> FocalLengthIn35mmFormat` (each a KeyError when
the popped key is absent). -/
def filter_exif (bag : ExifDict) : Except PyErr ExifDict :=
  let c := selectRelevant bag
  match c.ExposureProgram with
  | none => .error (.keyError "ExposureProgram")
  | some epv =>
    let c1 := { c with ExposureProgram := some (.str (epGet epv)) }
    match c1.FocalLengthIn35mmFilm with
    | none => .error (.keyError "FocalLengthIn35mmFilm")
    | some flv =>
      let c2 := { c1 with FocalLengthIn35mmFilm := some (.str (pyStr flv ++ "mm")) }
      match c2.ExposureTime with
      | none => .error (.keyError "ExposureTime")
      | some etv =>
        match pyFloat etv with
        | none => .error .valueError
        | some q =>
          let c3 := { c2 with ExposureTime := some (.str (convert_shutter_speed q)) }
          match clean_software_tag c3 with
          | .error e => .error e
          | .ok c4 =>
            match c4.ISOSpeedRatings with
            | none => .error (.keyError "ISOSpeedRatings")
            | some isov =>
              let c5 := { c4 with ISO := some isov, ISOSpeedRatings := none }
              match c5.FocalLengthIn35mmFilm with
              | none => .error (.keyError "FocalLengthIn35mmFilm")
              | some flv2 =>
                .ok { c5 with FocalLengthIn35mmFormat := some flv2,
                              FocalLengthIn35mmFilm := none }

/-- Key of the dict built by `get_image_exif`: either a canonical tag name
resolved through the TAGS table, or the raw numeric identifier when the
table has no entry (`TAGS.get(tag, tag)`). -/
inductive TagKey where
  | name : String → TagKey
  | id : Nat → TagKey
deriving DecidableEq

/-- Embedding of `get_image_exif` (lines 85-91).  `tags` is the fixed
identifier-to-name table (PIL's TAGS); the image's embedded metadata block
is `none` when `_getexif()` returns None (no block), otherwise the list of
(identifier, value) items of the returned dict (its keys are distinct).
An absent block — and likewise a falsy empty one — yields the empty
mapping. -/
def get_image_exif (tags : Nat → Option String) :
    Option (List (Nat × Value)) → List (TagKey × Value)
  | none => []
  | some l =>
    l.map (fun p =>
      (match tags p.1 with
       | some s => TagKey.name s
       | none => TagKey.id p.1, p.2))

/-- Module-level MAX_FILE_SIZE. -/
def MAX_FILE_SIZE : Nat := 10485760

/-- While-loop of `reduce_image_size` (lines 134-146) over the abstract
size function `enc`: while the current size exceeds `max_size` and the
quality is still positive, re-encode the original pixel data at the
current quality and decrease the quality by 5; the size of the last
produced byte stream is the result.  The fuel only makes the recursion
structural; the loop runs at most 19 times, so the fuel of 20 supplied by
`reduce_image_size` is never exhausted. -/
def reduceLoop (enc : Nat → Nat) (maxS : Nat) : Nat → Nat → Nat → Nat
  | 0, _, cur => cur
  | fuel + 1, q, cur =>
    if maxS < cur ∧ 0 < q then reduceLoop enc maxS fuel (q - 5) (enc q)
    else cur

/-- Embedding of `reduce_image_size` (lines 126-148), returning the byte
size of the encoding the returned image carries: the initial
default-quality save when it already fits, otherwise the stream produced
by the quality loop (the function then returns `Image.open` of that
stream). -/
def reduce_image_size (encDefault : Nat) (enc : Nat → Nat)
    (max_size : Nat := MAX_FILE_SIZE) : Nat :=
  if max_size < encDefault then reduceLoop enc max_size 20 95 encDefault
  else encDefault

/-- Qualities actually tried by the loop of `reduce_image_size`, in
order. -/
def reduceTrace (enc : Nat → Nat) (maxS : Nat) : Nat → Nat → Nat → List Nat
  | 0, _, _ => []
  | fuel + 1, q, cur =>
    if maxS < cur ∧ 0 < q then q :: reduceTrace enc maxS fuel (q - 5) (enc q)
    else []

/-- Qualities tried by a full `reduce_image_size` run. -/
def reduce_image_size_trace (encDefault : Nat) (enc : Nat → Nat)
    (max_size : Nat := MAX_FILE_SIZE) : List Nat :=
  if max_size < encDefault then reduceTrace enc max_size 20 95 encDefault
  else []

/-- The quality schedule 95, 90, ..., 5 of the spec. -/
def qualitySchedule : List Nat :=
  [95, 90, 85, 80, 75, 70, 65, 60, 55, 50, 45, 40, 35, 30, 25, 20, 15, 10, 5]

/-- Modelled from the spec: the smallest byte stream achieved across the
initial default-quality save and every quality of the schedule — the
stream the spec says an exhausted run returns.  This definition follows
the words of the spec for the refinement comparison; the code itself keeps
only the last stream. -/
def smallestAchievedSize (encDefault : Nat) (enc : Nat → Nat) : Nat :=
  (qualitySchedule.map enc).foldl Nat.min encDefault

/-- Descending 5-step quality list used to compare the trace with the
schedule. -/
def qualList : Nat → Nat → List Nat
  | 0, _ => []
  | fuel + 1, q => if 0 < q then q :: qualList fuel (q - 5) else []

/-- Boolean test whether an optional dict slot holds a string value. -/
def isStrValueO : Option Value → Bool
  | some (.str _) => true
  | _ => false

/-- Boolean success test for an embedded Python call. -/
def isOkE : Except PyErr ExifDict → Bool
  | .ok _ => true
  | .error _ => false

/-- Predicate: the ExposureTime value of `bag` is accepted by `float()`
(the step that runs right before `clean_software_tag`). -/
def etParses (bag : ExifDict) : Prop :=
  ∃ v q, bag.ExposureTime = some v ∧ pyFloat v = some q

/-- Predicate: `clean_software_tag` succeeds on a dict with the Software
and Model slots of `bag`: either the Adobe branch finds a Lightroom
match (Model is never consulted), or the generic branch finds a version
and Model holds a string. -/
def cleanSucceeds (bag : ExifDict) : Prop :=
  ∃ s, bag.Software = some (.str s) ∧
    ((containsSub "Adobe" s = true ∧ ∃ m, matchLC s = some m) ∨
     (containsSub "Adobe" s = false ∧ (∃ d1 d2, findVer s = some (d1, d2)) ∧
      ∃ mm, bag.Model = some (.str mm)))

/-- Exact characterization of the raw bags on which `filter_exif` raises a
KeyError (in source order: ExposureProgram, FocalLengthIn35mmFilm and
ExposureTime are unconditionally subscripted; then, provided float()
accepted ExposureTime, Software is subscripted, Model is subscripted only
on the generic composition branch, and ISOSpeedRatings is popped only
after the software cleaning succeeded). -/
def keyCondition (bag : ExifDict) : Prop :=
  bag.ExposureProgram = none ∨
  bag.FocalLengthIn35mmFilm = none ∨
  bag.ExposureTime = none ∨
  (etParses bag ∧
    (bag.Software = none ∨
     (∃ s d1 d2, bag.Software = some (.str s) ∧ containsSub "Adobe" s = false ∧
       findVer s = some (d1, d2) ∧ bag.Model = none) ∨
     (cleanSucceeds bag ∧ bag.ISOSpeedRatings = none)))

/-- Size function of the C1 counterexample: every schedule quality misses
the ceiling, and the last tried quality (5) gives the largest stream. -/
def cxEnc1 : Nat → Nat := fun q => if q = 5 then 30000000 else 15000000

/-- Dict on which neither software grammar branch matches. -/
def cxNoMatchDict : ExifDict :=
  { ExifDict.empty with Software := some (.str "no version info here"),
                        Model := some (.str "X") }

/-- Dict with the Adobe Lightroom software string of the spec example. -/
def exAdobeDict : ExifDict :=
  { ExifDict.empty with
      Software := some (.str "Adobe Photoshop Lightroom Classic 13.2 (Windows)"),
      Model := some (.str "NIKON Z f") }

/-- Dict with the Nikon `Ver.1.00` software string of the spec example. -/
def exNikonVerDict : ExifDict :=
  { ExifDict.empty with Software := some (.str "Ver.1.00"),
                        Model := some (.str "NIKON Z f") }

/-- Witness dict for the Adobe branch with a different Lightroom string. -/
def wAdobeDict : ExifDict :=
  { ExifDict.empty with
      Software := some (.str "Adobe Lightroom Classic 6.14 on Mac") }

/-- Witness dict for the generic branch with a `Ver2.00` software tag. -/
def wVerDict : ExifDict :=
  { ExifDict.empty with Software := some (.str "X100 Ver2.00 firmware"),
                        Model := some (.str "NIKON X100") }

/-- A bag with every field `filter_exif` touches except Model, whose
Software string takes the Adobe Lightroom branch: the normalization
succeeds even though Model is absent. -/
def cxBagNoModel : ExifDict :=
  { ExifDict.empty with
      FocalLengthIn35mmFilm := some (.int 50),
      ExposureTime := some (.rat (mkRat 1 100)),
      ISOSpeedRatings := some (.int 100),
      ExposureProgram := some (.int 1),
      Software := some (.str "Adobe Photoshop Lightroom Classic 13.2 (Windows)") }

/-- Same shape as `cxBagNoModel` with different values, for the C10
counterexample. -/
def cxBagNoModel10 : ExifDict :=
  { ExifDict.empty with
      FocalLengthIn35mmFilm := some (.int 85),
      ExposureTime := some (.rat (mkRat 1 500)),
      ISOSpeedRatings := some (.int 400),
      ExposureProgram := some (.int 2),
      Software := some (.str "Adobe Photoshop Lightroom Classic 12.0 (Macintosh)") }

/-- Well-formed bag except that ExposureTime is absent. -/
def wBagNoET : ExifDict :=
  { ExifDict.empty with
      Model := some (.str "NIKON Z f"),
      FocalLengthIn35mmFilm := some (.int 40),
      ISOSpeedRatings := some (.int 100),
      ExposureProgram := some (.int 2),
      Software := some (.str "Ver.1.00") }

/-- Bag with ExposureProgram present but FocalLengthIn35mmFilm absent. -/
def wBagNoFL : ExifDict :=
  { ExifDict.empty with ExposureProgram := some (.int 2) }

/-- Bag that reaches the software-cleaning step with Software absent. -/
def wBagNoSW : ExifDict :=
  { ExifDict.empty with
      ExposureProgram := some (.int 2),
      FocalLengthIn35mmFilm := some (.int 40),
      ExposureTime := some (.rat (mkRat 1 64)) }

/-- Bag whose Software takes the generic composition branch while Model is
absent. -/
def wBagNoModelVer : ExifDict :=
  { ExifDict.empty with
      ExposureProgram := some (.int 2),
      FocalLengthIn35mmFilm := some (.int 40),
      ExposureTime := some (.rat (mkRat 1 64)),
      Software := some (.str "Ver 3.10") }

/-- Full raw bag whose normalization keeps the integer ISO value. -/
def cxBag7 : ExifDict :=
  { ExifDict.empty with
      Model := some (.str "NIKON Z 6"),
      LensModel := some (.str "NIKKOR Z 50mm f/1.8 S"),
      FocalLengthIn35mmFilm := some (.int 50),
      FNumber := some (.rat (mkRat 9 5)),
      ExposureTime := some (.rat (mkRat 1 640)),
      ISOSpeedRatings := some (.int 640),
      ExposureProgram := some (.int 2),
      Software := some (.str "Ver.1.00"),
      DateTimeOriginal := some (.str "2023:05:01 09:30:00") }

/-- The record `filter_exif` produces from `cxBag7`. -/
def cxRes7 : ExifDict :=
  { ExifDict.empty with
      Model := some (.str "NIKON Z 6"),
      LensModel := some (.str "NIKKOR Z 50mm f/1.8 S"),
      FNumber := some (.rat (mkRat 9 5)),
      ExposureTime := some (.str "1/640s"),
      ExposureProgram := some (.str "Program AE"),
      Software := some (.str "Z 6 Ver. 1.0"),
      DateTimeOriginal := some (.str "2023:05:01 09:30:00"),
      ISO := some (.int 640),
      FocalLengthIn35mmFormat := some (.str "50mm") }

/-- Raw bag used to exhibit the failure of idempotence. -/
def cxBag8 : ExifDict :=
  { ExifDict.empty with
      Model := some (.str "NIKON Z f"),
      FocalLengthIn35mmFilm := some (.int 40),
      ExposureTime := some (.int 2),
      ISOSpeedRatings := some (.int 100),
      ExposureProgram := some (.int 4),
      Software := some (.str "Adobe Photoshop Lightroom Classic 13.2 (Windows)") }

/-- The record `filter_exif` produces from `cxBag8`. -/
def cxRes8 : ExifDict :=
  { ExifDict.empty with
      Model := some (.str "NIKON Z f"),
      ExposureTime := some (.str "2s"),
      ExposureProgram := some (.str "Shutter-priority AE"),
      Software := some (.str "Lightroom Classic 13.2"),
      ISO := some (.int 100),
      FocalLengthIn35mmFormat := some (.str "40mm") }

lemma toList_mk (l : List Char) : (String.mk l).toList = l := rfl

lemma subAt_of_isPrefixOf {n h : List Char} (hp : n.isPrefixOf h = true) :
    subAt n h = true := by
  cases h with
  | nil => simpa [subAt] using hp
  | cons c t => simp [subAt, hp]

lemma isPrefixOf_self_append (a b : List Char) :
    a.isPrefixOf (a ++ b) = true := by
  induction a with
  | nil => simp [List.isPrefixOf]
  | cons c t ih => simp [List.isPrefixOf, ih]

lemma subAt_head_mem :
    ∀ {h : List Char} {c : Char} {tl : List Char},
      subAt (c :: tl) h = true → c ∈ h := by
  intro h
  induction h with
  | nil => intro c tl hc; simp [subAt, List.isPrefixOf] at hc
  | cons a t ih =>
    intro c tl hc
    rw [subAt, Bool.or_eq_true] at hc
    rcases hc with hc | hc
    · simp only [List.isPrefixOf, Bool.and_eq_true, beq_iff_eq] at hc
      exact hc.1 ▸ List.mem_cons_self a t
    · exact List.mem_cons_of_mem _ (ih hc)

lemma lcHere_shape {l : List Char} {m : String} (h : lcHere l = some m) :
    ∃ d1 d2, m = String.mk ("Lightroom Classic ".toList ++ d1 ++ '.' :: d2) := by
  simp only [lcHere] at h
  split at h
  · split at h
    · exact ⟨_, _, (Option.some.inj h).symm⟩
    · exact absurd h (by simp)
  · exact absurd h (by simp)

lemma lcSearch_shape :
    ∀ {l : List Char} {m : String}, lcSearch l = some m →
      ∃ d1 d2, m = String.mk ("Lightroom Classic ".toList ++ d1 ++ '.' :: d2) := by
  intro l
  induction l with
  | nil => intro m h; simp [lcSearch] at h
  | cons c t ih =>
    intro m h
    rw [lcSearch] at h
    cases hh : lcHere (c :: t) with
    | some m2 => rw [hh] at h; exact Option.some.inj h ▸ lcHere_shape hh
    | none => rw [hh] at h; exact ih h

lemma lightroom_sub_matchLC {s m : String} (h : matchLC s = some m) :
    containsSub "Lightroom" m = true := by
  obtain ⟨d1, d2, rfl⟩ := lcSearch_shape h
  show subAt "Lightroom".toList (String.mk _).toList = true
  rw [toList_mk]
  apply subAt_of_isPrefixOf
  have he : "Lightroom Classic ".toList = "Lightroom".toList ++ " Classic ".toList := rfl
  rw [he, List.append_assoc, List.append_assoc]
  exact isPrefixOf_self_append _ _

lemma digitChar_isDigit (n : Nat) : (digitChar n).isDigit = true := by
  unfold digitChar
  split_ifs <;> decide

lemma natDigitsGo_digits :
    ∀ (fuel n : Nat) (acc : List Char), (∀ c ∈ acc, c.isDigit = true) →
      ∀ c ∈ natDigitsGo fuel n acc, c.isDigit = true := by
  intro fuel
  induction fuel with
  | zero => intro n acc hacc c hc; exact hacc c hc
  | succ f ih =>
    intro n acc hacc c hc
    rw [natDigitsGo] at hc
    split at hc
    · rcases List.mem_cons.mp hc with rfl | hc2
      · exact digitChar_isDigit _
      · exact hacc c hc2
    · refine ih (n / 10) _ ?_ c hc
      intro c2 hc2
      rcases List.mem_cons.mp hc2 with rfl | hc3
      · exact digitChar_isDigit _
      · exact hacc c2 hc3

lemma natDigitChars_digits (n : Nat) :
    ∀ c ∈ natDigitChars n, c.isDigit = true :=
  natDigitsGo_digits _ _ _ (by simp)

lemma zeroRun_digits (k : Nat) : ∀ c ∈ zeroRun k, c.isDigit = true := by
  intro c hc
  rw [List.eq_of_mem_replicate hc]
  decide

lemma expChars_float (p : Int) : ∀ c ∈ expChars p, floatChar c := by
  intro c hc
  simp only [expChars] at hc
  rcases List.mem_cons.mp hc with rfl | hc2
  · split <;> decide
  · split at hc2
    · rcases List.mem_cons.mp hc2 with rfl | hc3
      · decide
      · exact .inl (natDigitChars_digits _ c hc3)
    · exact .inl (natDigitChars_digits _ c hc2)

lemma sciForm_float {D : List Char} (hD : ∀ c ∈ D, c.isDigit = true)
    (p : Int) : ∀ c ∈ sciForm D p, floatChar c := by
  intro c hc
  cases D with
  | nil => simp [sciForm] at hc
  | cons c0 rest =>
    simp only [sciForm] at hc
    rcases List.mem_cons.mp hc with rfl | hc2
    · exact .inl (hD c (by simp))
    · rcases List.mem_append.mp hc2 with hc3 | hc3
      · split at hc3
        · simp at hc3
        · rcases List.mem_cons.mp hc3 with rfl | hc4
          · decide
          · exact .inl (hD c (List.mem_cons_of_mem _ hc4))
      · rcases List.mem_cons.mp hc3 with rfl | hc4
        · decide
        · exact expChars_float p c hc4

lemma fixedForm_float {D : List Char} (hD : ∀ c ∈ D, c.isDigit = true)
    (p : Int) : ∀ c ∈ fixedForm D p, floatChar c := by
  intro c hc
  simp only [fixedForm] at hc
  split at hc
  · rcases List.mem_cons.mp hc with rfl | hc2
    · decide
    · rcases List.mem_cons.mp hc2 with rfl | hc3
      · decide
      · rcases List.mem_append.mp hc3 with hc4 | hc4
        · exact .inl (zeroRun_digits _ c hc4)
        · exact .inl (hD c hc4)
  · split at hc
    · rcases List.mem_append.mp hc with hc2 | hc2
      · rcases List.mem_append.mp hc2 with hc3 | hc3
        · exact .inl (hD c hc3)
        · exact .inl (zeroRun_digits _ c hc3)
      · rcases List.mem_cons.mp hc2 with rfl | hc3
        · decide
        · rcases List.mem_cons.mp hc3 with rfl | hc4
          · decide
          · simp at hc4
    · rcases List.mem_append.mp hc with hc2 | hc2
      · exact .inl (hD c (List.take_subset _ _ hc2))
      · rcases List.mem_cons.mp hc2 with rfl | hc3
        · decide
        · exact .inl (hD c (List.drop_subset _ _ hc3))

lemma mkCandidate_digits (a b : Nat) (p0 : Int) (n : Nat) :
    ∀ c ∈ (mkCandidate a b p0 n).1.1, c.isDigit = true := by
  intro c hc
  simp only [mkCandidate] at hc
  split at hc
  · rcases List.mem_singleton.mp hc with rfl; decide
  · exact natDigitChars_digits _ c hc

lemma shortestGo_digits (a b m : Nat) (e p0 : Int) :
    ∀ (fuel n : Nat), ∀ c ∈ (shortestGo a b m e p0 fuel n).1,
      c.isDigit = true := by
  intro fuel
  induction fuel with
  | zero => intro n c hc; exact mkCandidate_digits a b p0 n c hc
  | succ f ih =>
    intro n c hc
    simp only [shortestGo] at hc
    split at hc
    · exact mkCandidate_digits a b p0 n c hc
    · exact ih (n + 1) c hc

lemma reprDoublePos_float (m : Nat) (e : Int) :
    ∀ c ∈ reprDoublePos m e, floatChar c := by
  intro c hc
  simp only [reprDoublePos] at hc
  split at hc
  · exact fixedForm_float (shortestGo_digits _ _ _ _ _ 16 1) _ c hc
  · exact sciForm_float (shortestGo_digits _ _ _ _ _ 16 1) _ c hc

lemma strFloatOfLit_float (neg : Bool) (a b : Nat) :
    ∀ c ∈ (strFloatOfLit neg a b).toList, floatChar c := by
  intro c hc
  simp only [strFloatOfLit] at hc
  split at hc
  · split at hc
    · exact (by decide : ∀ x ∈ "-0.0".toList, floatChar x) c hc
    · exact (by decide : ∀ x ∈ "0.0".toList, floatChar x) c hc
  · split at hc
    · split at hc
      · exact (by decide : ∀ x ∈ "-inf".toList, floatChar x) c hc
      · exact (by decide : ∀ x ∈ "inf".toList, floatChar x) c hc
    · split at hc
      · split at hc
        · exact (by decide : ∀ x ∈ "-0.0".toList, floatChar x) c hc
        · exact (by decide : ∀ x ∈ "0.0".toList, floatChar x) c hc
      · rw [toList_mk] at hc
        rcases List.mem_append.mp hc with hc2 | hc2
        · split at hc2
          · rcases List.mem_singleton.mp hc2 with rfl; decide
          · simp at hc2
        · exact reprDoublePos_float _ _ c hc2

lemma not_lightroom_canonVer (d1 d2 : List Char) :
    containsSub "Lightroom" (canonVer d1 d2) = false := by
  by_contra hc
  rw [Bool.not_eq_false] at hc
  have hm : 'L' ∈ (canonVer d1 d2).toList := subAt_head_mem hc
  have hf := strFloatOfLit_float false
    (digitsVal d1 * 10 ^ d2.length + digitsVal d2) (10 ^ d2.length) 'L' hm
  exact absurd hf (by decide)

/-- C9: with no embedded metadata block, `get_image_exif` returns the
empty mapping (and raises nothing); with a block, every tag identifier the
fixed table cannot resolve is kept, deterministically, under its raw
identifier as the key, with its value intact. -/
theorem C9_get_image_exif :
    (∀ tags : Nat → Option String, get_image_exif tags none = []) ∧
    ∀ (tags : Nat → Option String) (l : List (Nat × Value)) (t : Nat)
      (v : Value), (t, v) ∈ l → tags t = none →
      (TagKey.id t, v) ∈ get_image_exif tags (some l) := by
  constructor
  · intro tags; rfl
  · intro tags l t v hm ht
    have hx := List.mem_map_of_mem
      (fun p : Nat × Value =>
        (match tags p.1 with
         | some s => TagKey.name s
         | none => TagKey.id p.1, p.2)) hm
    rw [get_image_exif]
    simpa [ht] using hx

/-- C9 witness: the theorem evaluated on a blockless handle and on a block
holding the unresolvable identifier 37500. -/
theorem C9_witness :
    get_image_exif (fun _ => none) none = [] ∧
    (TagKey.id 37500, Value.int 1) ∈
      get_image_exif (fun _ => none) (some [(37500, Value.int 1)]) :=
  ⟨C9_get_image_exif.1 _,
   C9_get_image_exif.2 _ _ 37500 (Value.int 1) (by simp) rfl⟩

/-- C2 counterexample: on `"no version info here"` neither grammar branch
matches, and `clean_software_tag` raises TypeError (the membership test
`"Lightroom" in None`) instead of passing the raw string through. -/
theorem C2_counterexample :
    clean_software_tag cxNoMatchDict = .error .typeError ∧
    clean_software_tag cxNoMatchDict ≠ .ok cxNoMatchDict := by decide

/-- C2 amended: whenever neither grammar branch matches the raw Software
string (the Adobe branch finds no `Lightroom Classic d.d`, or the generic
branch finds no `Ver` version), `clean_software_tag` raises TypeError; the
raw string is never passed through. -/
theorem C2_amended :
    ∀ (d : ExifDict) (s : String), d.Software = some (.str s) →
      ((containsSub "Adobe" s = true ∧ matchLC s = none) ∨
       (containsSub "Adobe" s = false ∧ findVer s = none)) →
      clean_software_tag d = .error .typeError := by
  intro d s hs h
  unfold clean_software_tag
  rw [hs]
  rcases h with ⟨ha, hm⟩ | ⟨ha, hm⟩ <;> simp [ha, hm]

/-- C2 witness: the amended theorem evaluated on the no-match dict. -/
theorem C2_witness :
    clean_software_tag cxNoMatchDict = .error .typeError :=
  C2_amended cxNoMatchDict "no version info here" rfl (.inr ⟨by decide, by decide⟩)

/-- C4: software parsing is deterministic and branch-correct.  On the
Adobe branch the matched `Lightroom Classic <major>.<minor>` substring is
the final Software value; on the generic branch the captured digits are
canonicalized by float formatting and composed as
`"<Model without the NIKON prefix> Ver. <version>"`.  Both spec examples
evaluate as stated, and the two general branch laws hold for every dict. -/
theorem C4_clean_software_tag :
    clean_software_tag exAdobeDict =
      .ok { exAdobeDict with Software := some (.str "Lightroom Classic 13.2") } ∧
    clean_software_tag exNikonVerDict =
      .ok { exNikonVerDict with Software := some (.str "Z f Ver. 1.0") } ∧
    (∀ (d : ExifDict) (s m : String), d.Software = some (.str s) →
      containsSub "Adobe" s = true → matchLC s = some m →
      clean_software_tag d = .ok { d with Software := some (.str m) }) ∧
    ∀ (d : ExifDict) (s mdl : String) (d1 d2 : List Char),
      d.Software = some (.str s) → containsSub "Adobe" s = false →
      findVer s = some (d1, d2) → d.Model = some (.str mdl) →
      clean_software_tag d =
        .ok { d with
                Software := some (.str (pyReplaceNikon mdl ++ " Ver. " ++ canonVer d1 d2)) } := by
  refine ⟨by decide, by decide, ?_, ?_⟩
  · intro d s m hs ha hm
    unfold clean_software_tag
    rw [hs]
    simp [ha, hm, lightroom_sub_matchLC hm]
  · intro d s mdl d1 d2 hs ha hv hmdl
    unfold clean_software_tag
    rw [hs]
    simp [ha, hv, hmdl, not_lightroom_canonVer d1 d2]

/-- C4 witness: the two branch laws evaluated on fresh concrete dicts. -/
theorem C4_witness :
    clean_software_tag wAdobeDict =
      .ok { wAdobeDict with Software := some (.str "Lightroom Classic 6.14") } ∧
    clean_software_tag wVerDict =
      .ok { wVerDict with Software := some (.str "X100 Ver. 2.0") } := by
  constructor
  · exact C4_clean_software_tag.2.2.1 wAdobeDict
      "Adobe Lightroom Classic 6.14 on Mac" "Lightroom Classic 6.14"
      rfl (by decide) (by decide)
  · have h := C4_clean_software_tag.2.2.2 wVerDict
      "X100 Ver2.00 firmware" "NIKON X100" ['2'] ['0', '0']
      rfl (by decide) (by decide) rfl
    simpa using h

lemma reduceLoop_q_zero (enc : Nat → Nat) (maxS : Nat) :
    ∀ fuel cur, reduceLoop enc maxS fuel 0 cur = cur := by
  intro fuel cur
  cases fuel with
  | zero => rfl
  | succ n => simp [reduceLoop]

lemma reduceLoop_le (enc : Nat → Nat) (maxS : Nat) :
    ∀ fuel q cur, q ≤ 5 * fuel →
      (cur ≤ maxS ∨ ∃ k, 0 < k ∧ k ≤ q ∧ (q - k) % 5 = 0 ∧ enc k ≤ maxS) →
      reduceLoop enc maxS fuel q cur ≤ maxS := by
  intro fuel
  induction fuel with
  | zero =>
    intro q cur hq h
    rcases h with h | ⟨k, hk1, hk2, _, _⟩
    · exact h
    · omega
  | succ n ih =>
    intro q cur hq h
    rw [reduceLoop]
    split
    · next hcond =>
      apply ih (q - 5) (enc q) (by omega)
      rcases h with h | ⟨k, hk1, hk2, hk3, hk4⟩
      · omega
      · rcases Nat.lt_or_ge k q with hlt | hge
        · exact .inr ⟨k, hk1, by omega, by omega, hk4⟩
        · left; have : k = q := by omega
          exact this ▸ hk4
    · next hcond =>
      rcases h with h | ⟨k, hk1, hk2, _, _⟩
      · exact h
      · rcases Nat.lt_or_ge maxS cur with hc | hc
        · exact absurd ⟨hc, by omega⟩ hcond
        · exact hc

lemma reduceLoop_exhausted (enc : Nat → Nat) (maxS : Nat) :
    ∀ fuel q cur, 0 < q → q % 5 = 0 → q ≤ 5 * fuel →
      (∀ k, 0 < k → k ≤ q → (q - k) % 5 = 0 → maxS < enc k) → maxS < cur →
      reduceLoop enc maxS fuel q cur = enc 5 := by
  intro fuel
  induction fuel with
  | zero => intro q cur hq _ hfuel _ _; omega
  | succ n ih =>
    intro q cur hq hq5 hfuel hall hcur
    rw [reduceLoop, if_pos ⟨hcur, hq⟩]
    rcases Nat.lt_or_ge 5 q with hgt | hle
    · exact ih (q - 5) (enc q)
        (by omega) (by omega) (by omega)
        (fun k h1 h2 h3 => hall k h1 (by omega) (by omega))
        (hall q hq le_rfl (by omega))
    · have : q = 5 := by omega
      subst this
      simp [reduceLoop_q_zero]

/-- C1 counterexample: with the default 10,485,760-byte ceiling and a size
function on which every schedule quality misses the ceiling,
`reduce_image_size` returns the stream of the last tried quality
(30,000,000 bytes at quality 5), not the smallest byte stream achieved
(15,000,000 bytes), refuting the claim's exhausted-schedule clause. -/
theorem C1_counterexample :
    reduce_image_size 20000000 cxEnc1 MAX_FILE_SIZE = 30000000 ∧
    smallestAchievedSize 20000000 cxEnc1 = 15000000 ∧
    reduce_image_size 20000000 cxEnc1 MAX_FILE_SIZE ≠
      smallestAchievedSize 20000000 cxEnc1 := by decide

/-- C1 amended: with the default ceiling, whenever some quality of the
schedule 95, 90, ..., 5 yields an encoding at or below the ceiling, the
returned stream is at or below the ceiling; when every schedule quality
(and the initial default-quality save) misses the ceiling, the function
raises no error and returns the stream produced at the last tried quality
(5) — the last produced stream, which need not be the smallest achieved. -/
theorem C1_amended :
    (∀ (encDefault : Nat) (enc : Nat → Nat),
      (∃ q, q ∈ qualitySchedule ∧ enc q ≤ MAX_FILE_SIZE) →
      reduce_image_size encDefault enc MAX_FILE_SIZE ≤ MAX_FILE_SIZE) ∧
    ∀ (encDefault : Nat) (enc : Nat → Nat),
      MAX_FILE_SIZE < encDefault →
      (∀ q, q ∈ qualitySchedule → MAX_FILE_SIZE < enc q) →
      reduce_image_size encDefault enc MAX_FILE_SIZE = enc 5 := by
  constructor
  · intro encDefault enc ⟨q, hq, hle⟩
    rw [reduce_image_size]
    split
    · apply reduceLoop_le enc MAX_FILE_SIZE 20 95 encDefault (by omega)
      have hsch : ∀ x ∈ qualitySchedule, 0 < x ∧ x ≤ 95 ∧ (95 - x) % 5 = 0 := by
        decide
      obtain ⟨h1, h2, h3⟩ := hsch q hq
      exact .inr ⟨q, h1, h2, h3, hle⟩
    · omega
  · intro encDefault enc hd hall
    rw [reduce_image_size, if_pos hd]
    apply reduceLoop_exhausted enc MAX_FILE_SIZE 20 95 encDefault
      (by omega) (by omega) (by omega) ?_ hd
    intro k h1 h2 h3
    apply hall
    simp only [qualitySchedule, List.mem_cons, List.not_mem_nil, or_false]
    omega

/-- C1 witness: the amended theorem evaluated on a size function that fits
at quality 95 and on one that never fits. -/
theorem C1_witness :
    reduce_image_size 20000000 (fun _ => 1000) MAX_FILE_SIZE ≤ MAX_FILE_SIZE ∧
    reduce_image_size 20000000 (fun _ => 20000000) MAX_FILE_SIZE = 20000000 := by
  constructor
  · exact C1_amended.1 20000000 (fun _ => 1000) ⟨95, by decide, by decide⟩
  · exact C1_amended.2 20000000 (fun _ => 20000000) (by decide)
      (fun _ _ => by show MAX_FILE_SIZE < 20000000; decide)

lemma reduceTrace_prefix_qualList (enc : Nat → Nat) (maxS : Nat) :
    ∀ fuel q cur, ∃ t, reduceTrace enc maxS fuel q cur ++ t = qualList fuel q := by
  intro fuel
  induction fuel with
  | zero => intro q cur; exact ⟨[], rfl⟩
  | succ n ih =>
    intro q cur
    rw [reduceTrace, qualList]
    split
    · next hcond =>
      rw [if_pos hcond.2]
      obtain ⟨t, ht⟩ := ih (q - 5) (enc q)
      exact ⟨t, by rw [List.cons_append, ht]⟩
    · exact ⟨qualList (n + 1) q, by rw [List.nil_append, qualList]⟩

lemma qualList_20_95 : qualList 20 95 = qualitySchedule := rfl

/-- C6: the re-encoding loop tries qualities forming a prefix of the
schedule 95, 90, ..., 5 (so it starts at 95, decreases by exactly 5 per
iteration, and stays positive), performs at most 19 iterations, and
performs none when the default-quality encoding already fits.  That every
iteration re-encodes the original decoded pixel data with the same
metadata block is reflected in the embedding itself: the loop body
re-applies the fixed size function `enc` of the unchanged source image. -/
theorem C6_quality_loop :
    ∀ (encDefault : Nat) (enc : Nat → Nat) (max_size : Nat),
      (∃ t, reduce_image_size_trace encDefault enc max_size ++ t =
        qualitySchedule) ∧
      (reduce_image_size_trace encDefault enc max_size).length ≤ 19 ∧
      (encDefault ≤ max_size → reduce_image_size_trace encDefault enc max_size = []) := by
  intro encDefault enc max_size
  have hpre : ∃ t, reduce_image_size_trace encDefault enc max_size ++ t =
      qualitySchedule := by
    rw [reduce_image_size_trace]
    split
    · rw [← qualList_20_95]
      exact reduceTrace_prefix_qualList enc max_size 20 95 encDefault
    · exact ⟨qualitySchedule, rfl⟩
  refine ⟨hpre, ?_, ?_⟩
  · obtain ⟨t, ht⟩ := hpre
    have := congrArg List.length ht
    rw [List.length_append] at this
    have hs : qualitySchedule.length = 19 := by decide
    omega
  · intro hle
    rw [reduce_image_size_trace, if_neg (by omega)]

/-- C6 witness: the theorem evaluated on a run that stops after the first
schedule quality. -/
theorem C6_witness :
    (∃ t, reduce_image_size_trace 20000000 (fun _ => 0) MAX_FILE_SIZE ++ t =
      qualitySchedule) ∧
    (reduce_image_size_trace 20000000 (fun _ => 0) MAX_FILE_SIZE).length ≤ 19 ∧
    (20000000 ≤ MAX_FILE_SIZE →
      reduce_image_size_trace 20000000 (fun _ => 0) MAX_FILE_SIZE = []) :=
  C6_quality_loop 20000000 (fun _ => 0) MAX_FILE_SIZE

lemma divInt_den_le {p q : Int} (hq : 0 < q) :
    (Rat.divInt p q).den ≤ q.natAbs := by
  have hd := Rat.den_dvd p q
  have hle := Int.le_of_dvd hq hd
  omega

lemma limitDenLoop_den_le (v : ℚ) (N : Nat) (hN : 1 ≤ N) :
    ∀ (fuel : Nat) (p0 q0 p1 q1 n d : Int),
      ((q0 = 1 ∧ q1 = 0) ∨
       (1 ≤ q1 ∧ q1 ≤ (N : Int) ∧ 0 ≤ q0 ∧ q0 ≤ (N : Int) ∧ d < n)) →
      (limitDenLoop v N fuel p0 q0 p1 q1 n d).den ≤ N := by
  intro fuel
  induction fuel with
  | zero =>
    intro p0 q0 p1 q1 n d _
    show (0 : ℚ).den ≤ N
    simpa using hN
  | succ f ih =>
    intro p0 q0 p1 q1 n d hinv
    simp only [limitDenLoop]
    split
    · show (0 : ℚ).den ≤ N
      simpa using hN
    · next hdle =>
      have hdpos : 0 < d := by omega
      have hmod : n - n.fdiv d * d = n.fmod d := by
        rw [Int.fmod_def]; ring
      have hmodlt : n.fmod d < d := Int.fmod_lt_of_pos n hdpos
      split
      · next hbreak =>
        rcases hinv with ⟨hq0, hq1⟩ | ⟨hq11, hq1N, hq00, hq0N, hdn⟩
        · rw [hq0, hq1] at hbreak
          simp only [mul_zero, add_zero] at hbreak
          omega
        · have hq1pos : (0 : Int) < q1 := by omega
          have hk0 : 0 ≤ ((N : Int) - q0).fdiv q1 :=
            Int.fdiv_nonneg (by omega) (by omega)
          have hkq : ((N : Int) - q0).fdiv q1 * q1 ≤ (N : Int) - q0 := by
            rw [Int.fdiv_eq_ediv _ (by omega : (0 : Int) ≤ q1)]
            exact Int.ediv_mul_le _ (by omega)
          have hpos : 1 ≤ q0 + ((N : Int) - q0).fdiv q1 * q1 := by
            rcases Int.lt_or_le q0 1 with hq01 | hq01
            · have hq0z : q0 = 0 := by omega
              have hk1 : 1 ≤ ((N : Int) - q0).fdiv q1 := by
                rw [Int.fdiv_eq_ediv _ (by omega : (0 : Int) ≤ q1), hq0z]
                rw [Int.le_ediv_iff_mul_le hq1pos]
                omega
              nlinarith
            · nlinarith
          split
          · have := divInt_den_le (p := p1) hq1pos
            omega
          · have hub : q0 + ((N : Int) - q0).fdiv q1 * q1 ≤ (N : Int) := by omega
            have := divInt_den_le
              (p := p0 + ((N : Int) - q0).fdiv q1 * p1) (by omega :
                (0 : Int) < q0 + ((N : Int) - q0).fdiv q1 * q1)
            omega
      · next hcont =>
        rcases hinv with ⟨hq0, hq1⟩ | ⟨hq11, hq1N, hq00, hq0N, hdn⟩
        · apply ih
          right
          subst hq0; subst hq1
          simp only [mul_zero, add_zero]
          exact ⟨le_rfl, by exact_mod_cast hN, le_rfl, by positivity,
            hmod ▸ hmodlt⟩
        · have ha1 : 1 ≤ n.fdiv d := by
            rw [Int.fdiv_eq_ediv _ (by omega : (0 : Int) ≤ d)]
            rw [Int.le_ediv_iff_mul_le hdpos]
            omega
          have hq2ge : q1 ≤ q0 + n.fdiv d * q1 := by nlinarith
          apply ih
          right
          refine ⟨by omega, by omega, by omega, by omega, hmod ▸ hmodlt⟩

lemma limit_denominator_den_le (v : ℚ) (N : Nat) (hN : 1 ≤ N) :
    (limit_denominator v N).den ≤ N := by
  rw [limit_denominator, if_neg (by omega)]
  split
  · next h => exact h
  · exact limitDenLoop_den_le v N hN _ _ _ _ _ _ _ (.inl ⟨rfl, rfl⟩)

/-- C3: for every rational value in (0, 1) — every positive sub-second
float, embedded exactly — `convert_shutter_speed` renders the reduced
fraction produced by the denominator-limiting approximation (denominator
at most 1,000,000, numerator and denominator coprime) followed by `"s"`;
for every value at least 1 it renders the truncated integer seconds, which
equals the floor.  In particular the exact double `0.004` yields
`"1/250s"` and `2.0` yields `"2s"`. -/
theorem C3_convert_shutter_speed :
    (∀ v : ℚ, 0 < v → v < 1 →
      convert_shutter_speed v = ratStr (limit_denominator v 1000000) ++ "s" ∧
      (limit_denominator v 1000000).den ≤ 1000000 ∧
      (limit_denominator v 1000000).num.natAbs.Coprime
        (limit_denominator v 1000000).den) ∧
    (∀ v : ℚ, 1 ≤ v → convert_shutter_speed v = toString (Rat.floor v) ++ "s") ∧
    convert_shutter_speed (mkRat 1152921504606847 288230376151711744) = "1/250s" ∧
    convert_shutter_speed (mkRat 2 1) = "2s" := by
  refine ⟨?_, ?_, by decide, by decide⟩
  · intro v _ hlt
    refine ⟨by rw [convert_shutter_speed, if_pos hlt], ?_, ?_⟩
    · exact limit_denominator_den_le v 1000000 (by omega)
    · exact (limit_denominator v 1000000).reduced
  · intro v hv
    rw [convert_shutter_speed, if_neg (not_lt.mpr hv)]
    have hnum : 0 ≤ v.num := Rat.num_nonneg.mpr (by linarith)
    have hfl : v.num.tdiv v.den = Rat.floor v := by
      rw [Rat.floor]
      split
      · next h1 => rw [h1]; exact Int.tdiv_one v.num
      · exact Int.tdiv_eq_ediv hnum (by positivity)
    rw [hfl]

/-- C3 witness: the two universal clauses evaluated at 1/4 and 5/2. -/
theorem C3_witness :
    (convert_shutter_speed (mkRat 1 4) =
      ratStr (limit_denominator (mkRat 1 4) 1000000) ++ "s" ∧
      (limit_denominator (mkRat 1 4) 1000000).den ≤ 1000000 ∧
      (limit_denominator (mkRat 1 4) 1000000).num.natAbs.Coprime
        (limit_denominator (mkRat 1 4) 1000000).den) ∧
    convert_shutter_speed (mkRat 5 2) = toString (Rat.floor (mkRat 5 2)) ++ "s" :=
  ⟨C3_convert_shutter_speed.1 (mkRat 1 4) (by decide) (by decide),
   C3_convert_shutter_speed.2.1 (mkRat 5 2) (by decide)⟩

lemma clean_ok_shape {c r : ExifDict} (h : clean_software_tag c = .ok r) :
    ∃ sw : String, r = { c with Software := some (.str sw) } := by
  simp only [clean_software_tag] at h
  split at h
  · exact absurd h (by simp)
  · exact absurd h (by simp)
  · exact absurd h (by simp)
  · split at h
    · exact absurd h (by simp)
    · split at h
      · exact ⟨_, (Except.ok.inj h).symm⟩
      · split at h
        · exact absurd h (by simp)
        · exact ⟨_, (Except.ok.inj h).symm⟩
        · exact absurd h (by simp)
        · exact absurd h (by simp)

lemma filter_exif_ok_shape {bag r : ExifDict} (h : filter_exif bag = .ok r) :
    (∃ s, r.ExposureProgram = some (.str s)) ∧
    (∃ s, r.FocalLengthIn35mmFormat = some (.str s)) ∧
    (∃ s, r.ExposureTime = some (.str s)) ∧
    (∃ s, r.Software = some (.str s)) ∧
    r.Model = bag.Model ∧ r.LensModel = bag.LensModel ∧
    r.FNumber = bag.FNumber ∧ r.ISO = bag.ISOSpeedRatings ∧
    r.DateTimeOriginal = bag.DateTimeOriginal ∧
    r.ISOSpeedRatings = none ∧ r.FocalLengthIn35mmFilm = none ∧
    r.extra = [] := by
  simp only [filter_exif, selectRelevant] at h
  split at h
  · exact absurd h (by simp)
  · split at h
    · exact absurd h (by simp)
    · split at h
      · exact absurd h (by simp)
      · split at h
        · exact absurd h (by simp)
        · split at h
          · exact absurd h (by simp)
          · next c4 hcl =>
            obtain ⟨sw, rfl⟩ := clean_ok_shape hcl
            split at h
            · exact absurd h (by simp)
            · next isov hISO =>
              split at h
              · exact absurd h (by simp)
              · next flv2 hFL2 =>
                have hr := (Except.ok.inj h).symm
                subst hr
                simp only [] at hISO hFL2
                injection hFL2 with hFL2e
                subst hFL2e
                simp [hISO]

/-- C7 counterexample: normalizing a full raw bag leaves the integer ISO
value 640 in the record — a raw numeric value survives past
normalization, refuting the all-fields-are-strings invariant. -/
theorem C7_counterexample :
    filter_exif cxBag7 = .ok cxRes7 ∧ isStrValueO cxRes7.ISO = false := by
  decide

/-- C7 amended: in every record `filter_exif` returns, the four
unconditionally reformatted fields (ExposureProgram,
FocalLengthIn35mmFormat, ExposureTime, Software) hold finalized strings,
while Model, LensModel, FNumber, ISO and DateTimeOriginal keep the raw
bag values unchanged (so they are strings only when the raw values were). -/
theorem C7_amended :
    ∀ (bag r : ExifDict), filter_exif bag = .ok r →
      (∃ s, r.ExposureProgram = some (.str s)) ∧
      (∃ s, r.FocalLengthIn35mmFormat = some (.str s)) ∧
      (∃ s, r.ExposureTime = some (.str s)) ∧
      (∃ s, r.Software = some (.str s)) ∧
      r.Model = bag.Model ∧ r.LensModel = bag.LensModel ∧
      r.FNumber = bag.FNumber ∧ r.ISO = bag.ISOSpeedRatings ∧
      r.DateTimeOriginal = bag.DateTimeOriginal := by
  intro bag r h
  obtain ⟨h1, h2, h3, h4, h5, h6, h7, h8, h9, _⟩ := filter_exif_ok_shape h
  exact ⟨h1, h2, h3, h4, h5, h6, h7, h8, h9⟩

/-- C7 witness: the amended theorem evaluated on the concrete bag whose
output record is `cxRes8`. -/
theorem C7_witness :
    (∃ s, cxRes8.ExposureProgram = some (.str s)) ∧
    (∃ s, cxRes8.FocalLengthIn35mmFormat = some (.str s)) ∧
    (∃ s, cxRes8.ExposureTime = some (.str s)) ∧
    (∃ s, cxRes8.Software = some (.str s)) ∧
    cxRes8.Model = cxBag8.Model ∧ cxRes8.LensModel = cxBag8.LensModel ∧
    cxRes8.FNumber = cxBag8.FNumber ∧ cxRes8.ISO = cxBag8.ISOSpeedRatings ∧
    cxRes8.DateTimeOriginal = cxBag8.DateTimeOriginal :=
  C7_amended cxBag8 cxRes8 (by decide)

/-- C8 counterexample: `filter_exif` is not idempotent — re-running it on
its own output raises KeyError on FocalLengthIn35mmFilm, because the
pop-based rename has already removed that key (a second application of the
rename is a KeyError, not a no-op). -/
theorem C8_counterexample :
    filter_exif cxBag8 = .ok cxRes8 ∧
    filter_exif cxRes8 = .error (.keyError "FocalLengthIn35mmFilm") := by
  decide

/-- C8 amended: the `pop`-based renames are not idempotent.  Re-running
`filter_exif` on any record it produced raises KeyError on
FocalLengthIn35mmFilm (the key was already renamed away), rather than
returning the record unchanged. -/
theorem C8_amended :
    ∀ (bag r : ExifDict), filter_exif bag = .ok r →
      filter_exif r = .error (.keyError "FocalLengthIn35mmFilm") := by
  intro bag r h
  obtain ⟨⟨eps, hEP⟩, _, _, _, _, _, _, _, _, _, hFL, _⟩ :=
    filter_exif_ok_shape h
  simp [filter_exif, selectRelevant, hEP, hFL]

/-- C8 witness: the amended theorem evaluated on the record produced from
`cxBag7`. -/
theorem C8_witness :
    filter_exif cxRes7 = .error (.keyError "FocalLengthIn35mmFilm") :=
  C8_amended cxBag7 cxRes7 (by decide)

/-- C5 counterexample: a bag from which Model — one of the fields the
claim lists as unconditionally required — is absent normalizes
successfully when the Software string takes the Adobe Lightroom branch, so
absence of Model does not always raise. -/
theorem C5_counterexample :
    cxBagNoModel.Model = none ∧ isOkE (filter_exif cxBagNoModel) = true := by
  decide

/-- C5 amended: `filter_exif` raises a missing-key error whenever
ExposureTime, FocalLengthIn35mmFilm or Software is absent (stated with the
fields the source reads before each access present, in evaluation order);
absence of Model raises only when the software cleaning reaches the
model-composition branch.  In particular a bag that is well-formed except
for a missing ExposureTime raises KeyError "ExposureTime". -/
theorem C5_amended :
    (∀ bag : ExifDict, bag.ExposureProgram ≠ none →
      bag.FocalLengthIn35mmFilm ≠ none → bag.ExposureTime = none →
      filter_exif bag = .error (.keyError "ExposureTime")) ∧
    (∀ bag : ExifDict, bag.ExposureProgram ≠ none →
      bag.FocalLengthIn35mmFilm = none →
      filter_exif bag = .error (.keyError "FocalLengthIn35mmFilm")) ∧
    (∀ (bag : ExifDict) (v : Value) (q : ℚ), bag.ExposureProgram ≠ none →
      bag.FocalLengthIn35mmFilm ≠ none → bag.ExposureTime = some v →
      pyFloat v = some q → bag.Software = none →
      filter_exif bag = .error (.keyError "Software")) ∧
    ∀ (bag : ExifDict) (v : Value) (q : ℚ) (s : String) (d1 d2 : List Char),
      bag.ExposureProgram ≠ none → bag.FocalLengthIn35mmFilm ≠ none →
      bag.ExposureTime = some v → pyFloat v = some q →
      bag.Software = some (.str s) → containsSub "Adobe" s = false →
      findVer s = some (d1, d2) → bag.Model = none →
      filter_exif bag = .error (.keyError "Model") := by
  refine ⟨?_, ?_, ?_, ?_⟩
  · intro bag hEP hFL hET
    obtain ⟨epv, hEPv⟩ := Option.ne_none_iff_exists'.mp hEP
    obtain ⟨flv, hFLv⟩ := Option.ne_none_iff_exists'.mp hFL
    simp [filter_exif, selectRelevant, hEPv, hFLv, hET]
  · intro bag hEP hFL
    obtain ⟨epv, hEPv⟩ := Option.ne_none_iff_exists'.mp hEP
    simp [filter_exif, selectRelevant, hEPv, hFL]
  · intro bag v q hEP hFL hET hPF hSW
    obtain ⟨epv, hEPv⟩ := Option.ne_none_iff_exists'.mp hEP
    obtain ⟨flv, hFLv⟩ := Option.ne_none_iff_exists'.mp hFL
    simp [filter_exif, selectRelevant, clean_software_tag,
      hEPv, hFLv, hET, hPF, hSW]
  · intro bag v q s d1 d2 hEP hFL hET hPF hSW hA hV hM
    obtain ⟨epv, hEPv⟩ := Option.ne_none_iff_exists'.mp hEP
    obtain ⟨flv, hFLv⟩ := Option.ne_none_iff_exists'.mp hFL
    simp [filter_exif, selectRelevant, clean_software_tag,
      hEPv, hFLv, hET, hPF, hSW, hA, hV, hM,
      not_lightroom_canonVer d1 d2]

/-- C5 witness: the four amended clauses evaluated on concrete bags. -/
theorem C5_witness :
    filter_exif wBagNoET = .error (.keyError "ExposureTime") ∧
    filter_exif wBagNoFL = .error (.keyError "FocalLengthIn35mmFilm") ∧
    filter_exif wBagNoSW = .error (.keyError "Software") ∧
    filter_exif wBagNoModelVer = .error (.keyError "Model") := by
  refine ⟨?_, ?_, ?_, ?_⟩
  · exact C5_amended.1 wBagNoET (by decide) (by decide) rfl
  · exact C5_amended.2.1 wBagNoFL (by decide) rfl
  · exact C5_amended.2.2.1 wBagNoSW (.rat (mkRat 1 64)) (mkRat 1 64)
      (by decide) (by decide) rfl (by decide) rfl
  · exact C5_amended.2.2.2 wBagNoModelVer (.rat (mkRat 1 64)) (mkRat 1 64)
      "Ver 3.10" ['3'] ['1', '0'] (by decide) (by decide) rfl (by decide) rfl
      (by decide) (by decide) rfl

/-- C10 counterexample: Model is one of the six tags the claim says are
unconditionally required, yet a bag without Model whose Software string
takes the Adobe Lightroom branch normalizes without any error — the
claimed equivalence fails in the only-if direction. -/
theorem C10_counterexample :
    cxBagNoModel10.Model = none ∧ isOkE (filter_exif cxBagNoModel10) = true := by
  decide

/-- C10 amended: `filter_exif` raises a missing-key error exactly on the
bags satisfying `keyCondition`: ExposureProgram, FocalLengthIn35mmFilm or
ExposureTime absent-or-null; or — once float() has accepted ExposureTime —
Software absent-or-null, or Model absent-or-null while the Software string
takes the generic composition branch, or ISOSpeedRatings absent-or-null
while the software cleaning succeeds.  ISOSpeedRatings and ExposureProgram
are indeed required, but Model is required only on the composition branch,
and LensModel, FNumber and DateTimeOriginal are never required. -/
theorem C10_amended :
    ∀ bag : ExifDict,
      (∃ k, filter_exif bag = .error (.keyError k)) ↔ keyCondition bag := by
  intro bag
  cases hEP : bag.ExposureProgram with
  | none => simp [filter_exif, selectRelevant, keyCondition, hEP]
  | some epv =>
  cases hFL : bag.FocalLengthIn35mmFilm with
  | none => simp [filter_exif, selectRelevant, keyCondition, hEP, hFL]
  | some flv =>
  cases hET : bag.ExposureTime with
  | none => simp [filter_exif, selectRelevant, keyCondition, hEP, hFL, hET]
  | some etv =>
  cases hPF : pyFloat etv with
  | none =>
    simp [filter_exif, selectRelevant, keyCondition, etParses, hEP, hFL,
      hET, hPF]
  | some q =>
  cases hSW : bag.Software with
  | none =>
    simp [filter_exif, selectRelevant, clean_software_tag, keyCondition,
      etParses, hEP, hFL, hET, hPF, hSW]
  | some swv =>
  cases swv with
  | int n =>
    simp [filter_exif, selectRelevant, clean_software_tag, keyCondition,
      etParses, cleanSucceeds, hEP, hFL, hET, hPF, hSW]
  | rat qq =>
    simp [filter_exif, selectRelevant, clean_software_tag, keyCondition,
      etParses, cleanSucceeds, hEP, hFL, hET, hPF, hSW]
  | str s =>
  cases hA : containsSub "Adobe" s with
  | true =>
    cases hM : matchLC s with
    | none =>
      simp [filter_exif, selectRelevant, clean_software_tag, keyCondition,
        etParses, cleanSucceeds, hEP, hFL, hET, hPF, hSW, hA, hM]
    | some m =>
      have hLr := lightroom_sub_matchLC hM
      cases hISO : bag.ISOSpeedRatings with
      | none =>
        simp [filter_exif, selectRelevant, clean_software_tag, keyCondition,
          etParses, cleanSucceeds, hEP, hFL, hET, hPF, hSW, hA, hM, hLr,
          hISO]
      | some isov =>
        simp [filter_exif, selectRelevant, clean_software_tag, keyCondition,
          etParses, cleanSucceeds, hEP, hFL, hET, hPF, hSW, hA, hM, hLr,
          hISO]
  | false =>
    cases hV : findVer s with
    | none =>
      simp [filter_exif, selectRelevant, clean_software_tag, keyCondition,
        etParses, cleanSucceeds, hEP, hFL, hET, hPF, hSW, hA, hV]
    | some p =>
      obtain ⟨d1, d2⟩ := p
      have hnl := not_lightroom_canonVer d1 d2
      cases hMo : bag.Model with
      | none =>
        simp [filter_exif, selectRelevant, clean_software_tag, keyCondition,
          etParses, cleanSucceeds, hEP, hFL, hET, hPF, hSW, hA, hV, hnl,
          hMo]
      | some mv =>
        cases mv with
        | str mm =>
          cases hISO : bag.ISOSpeedRatings with
          | none =>
            simp [filter_exif, selectRelevant, clean_software_tag,
              keyCondition, etParses, cleanSucceeds, hEP, hFL, hET, hPF,
              hSW, hA, hV, hnl, hMo, hISO]
          | some isov =>
            simp [filter_exif, selectRelevant, clean_software_tag,
              keyCondition, etParses, cleanSucceeds, hEP, hFL, hET, hPF,
              hSW, hA, hV, hnl, hMo, hISO]
        | int n =>
          simp [filter_exif, selectRelevant, clean_software_tag,
            keyCondition, etParses, cleanSucceeds, hEP, hFL, hET, hPF, hSW,
            hA, hV, hnl, hMo]
        | rat qq =>
          simp [filter_exif, selectRelevant, clean_software_tag,
            keyCondition, etParses, cleanSucceeds, hEP, hFL, hET, hPF, hSW,
            hA, hV, hnl, hMo]

/-- C10 witness: the amended equivalence evaluated on a bag lacking
ExposureTime. -/
theorem C10_witness :
    ∃ k, filter_exif wBagNoET = .error (.keyError k) :=
  (C10_amended wBagNoET).mpr (by right; right; left; rfl)

end CS
